import Mathlib

/-!
# persiancal: Gregorian ↔ Jalali conversion through Julian Day Numbers

A shallow embedding of `pkg/persiancal` (conversion.go, time.go, util.go, errors.go, locale.go
and `Format` of format.go).

Conventions of the embedding.

* Go `int` values are mathematical integers (`Int`); overflow of the 64-bit machine type is
  outside the model.  The Go operator `/` truncates toward zero and `%` takes the sign of the
  dividend: they are `Int.tdiv` and `Int.tmod`.  The operators `/` and `%` of `Int` itself
  (floor and non-negative remainder for a positive divisor) only occur in the model of the
  standard library and in proofs.
* `time.Time` belongs to the Go standard library, not to the package.  The package only ever
  builds UTC midnights, so a `Time` is modelled by the number of whole days elapsed since
  0001-01-01 in the proleptic Gregorian calendar (the zero `time.Time`).
* The two floating point products of `gregorianToJDN` are read as exact rational products
  truncated toward zero: `int(365.25*x)` is `(1461*x) tdiv 4` (365.25 is a binary fraction, the
  product is exact in float64), `int(30.6001*x)` is `(306001*x) tdiv 10000`; for the month
  numbers 1..12 that reach it (x in 4..15) the float product is at least 4e-4 away from every
  integer, so the truncations agree.
* A `time.Duration` is its int64 count of nanoseconds; `int(duration.Hours() / 24)` in
  `DaysBetween` is read as the exact quotient by the nanoseconds of a day, truncated toward zero.
* The `for` loops of `AddMonths` and `DayOfYear` are recursive functions whose termination is
  checked.
* Go strings are sequences of characters; `strings.ReplaceAll` and the `%d`, `%02d`, `%04d`
  verbs of `fmt.Sprintf` are modelled for `Format`.
-/

namespace Persiancal

/-! ## Standard library model: `time.Time` restricted to UTC midnights -/

/-- Instant at 00:00:00 UTC, as the count of days since 0001-01-01 (proleptic Gregorian). -/
structure Time where
  days : Int
deriving DecidableEq, Repr

/-- Gregorian leap-year rule of the standard library (`year%4 == 0 && (year%100 != 0 ||
year%400 == 0)`); the remainders are zero or not independently of the rounding mode. -/
def gregorianLeap (y : Int) : Bool :=
  decide (y % 4 = 0 ∧ (y % 100 ≠ 0 ∨ y % 400 = 0))

/-- Days of a non-leap year before the first of month `m` (table `daysBefore` of package
time), for `m` in 1..12. -/
def daysBefore (m : Int) : Int :=
  if m ≤ 1 then 0
  else if m = 2 then 31
  else if m = 3 then 59
  else if m = 4 then 90
  else if m = 5 then 120
  else if m = 6 then 151
  else if m = 7 then 181
  else if m = 8 then 212
  else if m = 9 then 243
  else if m = 10 then 273
  else if m = 11 then 304
  else 334

/-- Length of a Gregorian month. -/
def gregorianMonthDays (y m : Int) : Int :=
  if m = 2 then (if gregorianLeap y then 29 else 28)
  else if m = 4 ∨ m = 6 ∨ m = 9 ∨ m = 11 then 30
  else 31

/-- A valid Gregorian date: month 1..12 and day within the month. -/
def gregorianValid (y m d : Int) : Prop :=
  1 ≤ m ∧ m ≤ 12 ∧ 1 ≤ d ∧ d ≤ gregorianMonthDays y m

instance (y m d : Int) : Decidable (gregorianValid y m d) := by
  unfold gregorianValid; infer_instance

/-- Model of `time.Date(year, month, day, 0, 0, 0, 0, time.UTC)`.  Like the library it accepts
values outside the usual ranges: the month is normalised into 1..12 carrying into the year, and
the day is counted from the first of that month, overflowing into neighbouring months. -/
def Time.Date (year month day : Int) : Time :=
  let y := year + (month - 1) / 12
  let m := (month - 1) % 12 + 1
  ⟨365 * (y - 1) + (y - 1) / 4 - (y - 1) / 100 + (y - 1) / 400
    + daysBefore m + (if gregorianLeap y = true ∧ 3 ≤ m then 1 else 0) + (day - 1)⟩

/-- Civil date (year, month, day) of an instant, by the classical splitting of the day count
(taken from 1 March of year -4800) into centuries, years and months, in floor arithmetic.
`Date_civil` and `civil_Date` below show that it is the two-sided inverse of `Time.Date` on
valid dates. -/
def Time.civil (t : Time) : Int × Int × Int :=
  let a := t.days + 1753470
  let b := (4 * a + 3) / 146097
  let c := a - 146097 * b / 4
  let d := (4 * c + 3) / 1461
  let e := c - 1461 * d / 4
  let m := (5 * e + 2) / 153
  (100 * b + d - 4800 + m / 10, m + 3 - 12 * (m / 10), e - (153 * m + 2) / 5 + 1)

/-- Model of `t.Year()`. -/
def Time.Year (t : Time) : Int := t.civil.1

/-- Model of `int(t.Month())`. -/
def Time.Month (t : Time) : Int := t.civil.2.1

/-- Model of `t.Day()`. -/
def Time.Day (t : Time) : Int := t.civil.2.2

/-- Model of `t.AddDate(years, months, days)`: the library rebuilds the instant with
`Date(year+years, month+months, day+days, ...)`. -/
def Time.AddDate (t : Time) (years months days : Int) : Time :=
  Time.Date (t.Year + years) (t.Month + months) (t.Day + days)

/-- Largest `time.Duration`: the nanosecond count is an int64. -/
def maxDuration : Int := 9223372036854775807

/-- Smallest `time.Duration`. -/
def minDuration : Int := -9223372036854775808

/-- Model of `t.Sub(u)`, a `time.Duration` in nanoseconds.  As in the library, a difference
that does not fit the int64 is replaced by the largest or the smallest duration. -/
def Time.Sub (t u : Time) : Int :=
  let d := (t.days - u.days) * 86400000000000
  if maxDuration < d then maxDuration
  else if d < minDuration then minDuration
  else d

/-- Worker of `ReplaceAll` for a non-empty `old`, on the characters still to read; `skip`
counts the characters of a match that were already replaced. -/
def replaceAllAux (old new : List Char) : Nat → List Char → List Char
  | _, [] => []
  | skip + 1, _ :: cs => replaceAllAux old new skip cs
  | 0, c :: cs =>
    if old.isPrefixOf (c :: cs) then new ++ replaceAllAux old new (old.length - 1) cs
    else c :: replaceAllAux old new 0 cs

/-- Model of `strings.ReplaceAll(s, old, new)`: every non-overlapping instance of `old`, from
the left, becomes `new`; an empty `old` matches before every character and at the end.  Strings
are sequences of characters: for valid UTF-8 a byte-wise match is a character-wise match. -/
def ReplaceAll (s old new : String) : String :=
  if old.data = [] then
    String.mk (new.data ++ (s.data.map fun c => c :: new.data).flatten)
  else String.mk (replaceAllAux old.data new.data 0 s.data)

/-- Model of `fmt.Sprintf("%d", n)`. -/
def sprintfD (n : Int) : String :=
  if n < 0 then String.mk ([ '-'] ++ Nat.toDigits 10 n.natAbs)
  else String.mk (Nat.toDigits 10 n.natAbs)

/-- Model of `fmt.Sprintf("%0wd", n)` (`%02d`, `%04d`): zeros pad the number to the width
`w`, after the sign, which counts in the width. -/
def sprintf0D (w : Nat) (n : Int) : String :=
  let ds := Nat.toDigits 10 n.natAbs
  if n < 0 then String.mk ([ '-'] ++ List.replicate (w - 1 - ds.length) '0' ++ ds)
  else String.mk (List.replicate (w - ds.length) '0' ++ ds)

/-! ## conversion.go -/

/-- Julian day number of Gregorian epoch (0001-01-01). -/
def gregorianEpoch : Int := 1721426

/-- Julian day number of Jalali epoch (0001-01-01). -/
def jalaliEpoch : Int := 1948321

/-- Source: `gregorianToJDN` converts a Gregorian date to Julian Day Number. -/
def gregorianToJDN (gy gm gd : Int) : Int :=
  let gy1 := if gm < 3 then gy - 1 else gy
  let gm1 := if gm < 3 then gm + 12 else gm
  let a := Int.tdiv gy1 100
  let b := 2 - a + Int.tdiv a 4
  Int.tdiv (1461 * (gy1 + 4716)) 4 + Int.tdiv (306001 * (gm1 + 1)) 10000 + gd + b - 1524

/-- Source: `jdnToGregorian` converts a Julian Day Number to Gregorian date. -/
def jdnToGregorian (jdn : Int) : Int × Int × Int :=
  let a := jdn + 32044
  let b := Int.tdiv (4 * a + 3) 146097
  let c := a - Int.tdiv (146097 * b) 4
  let d := Int.tdiv (4 * c + 3) 1461
  let e := c - Int.tdiv (1461 * d) 4
  let m := Int.tdiv (5 * e + 2) 153
  let gd := e - Int.tdiv (153 * m + 2) 5 + 1
  let gm := m + 3 - 12 * Int.tdiv m 10
  let gy := 100 * b + d - 4800 + Int.tdiv m 10
  (gy, gm, gd)

/-- Source: `jalaliToJDN` converts a Jalali date to Julian Day Number. -/
def jalaliToJDN (jy jm jd : Int) : Int :=
  let epbase := jy - 474
  let epyear := 474 + Int.tmod epbase 2820
  let mdays := if jm ≤ 7 then (jm - 1) * 31 else (jm - 1) * 30 + 6
  jd + mdays
    + Int.tdiv (epyear * 682 - 110) 2816
    + (epyear - 1) * 365
    + Int.tdiv epbase 2820 * 1029983
    + jalaliEpoch - 1

/-- Source: `jdnToJalali` converts a Julian Day Number to Jalali date. -/
def jdnToJalali (jdn : Int) : Int × Int × Int :=
  let depoch := jdn - jalaliToJDN 475 1 1
  let cycle0 := Int.tdiv depoch 1029983
  let cyear0 := Int.tmod depoch 1029983
  let cyear := if cyear0 < 0 then cyear0 + 1029983 else cyear0
  let cycle := if cyear0 < 0 then cycle0 - 1 else cycle0
  if cyear = 1029982 then
    let ycycle := 2820
    let jy0 := ycycle + 2820 * cycle + 474
    let jy := if jy0 ≤ 0 then jy0 - 1 else jy0
    (jy, 12, 30)
  else
    let aux1 := Int.tdiv cyear 366
    let aux2 := Int.tmod cyear 366
    let ycycle0 := Int.tdiv (2816 * aux2 + 2134 * aux1 + 2815) 1028522
    let ycycle := ycycle0 + (aux1 + 1)
    let jy0 := ycycle + 2820 * cycle + 474
    let jy := if jy0 ≤ 0 then jy0 - 1 else jy0
    let yday := jdn - jalaliToJDN jy 1 1 + 1
    if yday ≤ 186 then
      (jy, 1 + Int.tdiv (yday - 1) 31, Int.tmod (yday - 1) 31 + 1)
    else
      (jy, 7 + Int.tdiv (yday - 187) 30, Int.tmod (yday - 187) 30 + 1)

/-- Source: `FromGregorian` converts a Gregorian time.Time to Jalali date components. -/
def FromGregorian (t : Time) : Int × Int × Int :=
  let gy := t.Year
  let gm := t.Month
  let gd := t.Day
  let gDays := gregorianToJDN gy gm gd
  jdnToJalali gDays

/-- Source: `ToGregorian` converts a Jalali date to Gregorian time.Time. -/
def ToGregorian (jy jm jd : Int) : Time :=
  let jdn := jalaliToJDN jy jm jd
  let g := jdnToGregorian jdn
  Time.Date g.1 g.2.1 g.2.2

/-- Source: `isJalaliLeap` checks if a Jalali year is a leap year using the 2820-year cycle. -/
def isJalaliLeap (jy : Int) : Bool :=
  let epbase := jy - 474
  let epyear := 474 + Int.tmod epbase 2820
  decide (Int.tmod (epyear * 682 - 110) 2816 < 682)

/-- Source: `daysInJalaliMonth` returns the number of days in a given Jalali month. -/
def daysInJalaliMonth (jy jm : Int) : Int :=
  if jm < 1 ∨ jm > 12 then 0
  else if jm ≤ 6 then 31
  else if jm ≤ 11 then 30
  else if isJalaliLeap jy = true then 30
  else 29

/-! ## errors.go -/

/-- Error values of the package (errors.go). -/
inductive Error where
  | ErrInvalidDate
  | ErrInvalidFormat
  | ErrInvalidLayout
  | ErrParseFailure
  | ErrInvalidMonth
  | ErrInvalidDay
deriving DecidableEq, Repr

/-! ## time.go -/

/-- Source: `JalaliDate` represents a date in the Jalali (Persian) calendar. -/
structure JalaliDate where
  Year : Int
  Month : Int
  Day : Int
deriving DecidableEq, Repr

/-- Source: `FromGregorianDate` converts a Gregorian time.Time to JalaliDate. -/
def FromGregorianDate (t : Time) : JalaliDate :=
  let r := FromGregorian t
  { Year := r.1, Month := r.2.1, Day := r.2.2 }

/-- Source: `Validate` checks if the JalaliDate is valid; `none` is the `nil` error. -/
def JalaliDate.Validate (j : JalaliDate) : Option Error :=
  if j.Month < 1 ∨ j.Month > 12 then some Error.ErrInvalidMonth
  else
    let maxDay := daysInJalaliMonth j.Year j.Month
    if j.Day < 1 ∨ j.Day > maxDay then some Error.ErrInvalidDay
    else none

/-- Source: `New` creates a new JalaliDate with validation.  The result is the Go pair
`(JalaliDate, error)`; on failure the date is the zero value `JalaliDate{}`. -/
def New (year month day : Int) : JalaliDate × Option Error :=
  let j : JalaliDate := { Year := year, Month := month, Day := day }
  match j.Validate with
  | some err => ({ Year := 0, Month := 0, Day := 0 }, some err)
  | none => (j, none)

/-- Source: method `ToGregorian` converts the JalaliDate to a Gregorian time.Time. -/
def JalaliDate.ToGregorian (j : JalaliDate) : Time :=
  Persiancal.ToGregorian j.Year j.Month j.Day

/-- Source: `IsLeap` returns true if the year is a leap year in the Jalali calendar. -/
def JalaliDate.IsLeap (j : JalaliDate) : Bool := isJalaliLeap j.Year

/-- Source: `AddDays` adds n days to the date and returns a new JalaliDate. -/
def JalaliDate.AddDays (j : JalaliDate) (n : Int) : JalaliDate :=
  let t := j.ToGregorian
  let t1 := t.AddDate 0 0 n
  FromGregorianDate t1

/-- First loop of `AddMonths`: `for month > 12 { month -= 12; year++ }`, on the pair
(month, year). -/
def monthOverflow (month year : Int) : Int × Int :=
  if 12 < month then monthOverflow (month - 12) (year + 1) else (month, year)
termination_by (month - 12).toNat
decreasing_by omega

/-- Second loop of `AddMonths`: `for month < 1 { month += 12; year-- }`, on the pair
(month, year). -/
def monthUnderflow (month year : Int) : Int × Int :=
  if month < 1 then monthUnderflow (month + 12) (year - 1) else (month, year)
termination_by (1 - month).toNat
decreasing_by omega

/-- Source: `AddMonths` adds n months to the date and returns a new JalaliDate. -/
def JalaliDate.AddMonths (j : JalaliDate) (n : Int) : JalaliDate :=
  let year := j.Year
  let month := j.Month + n
  let day := j.Day
  let up := monthOverflow month year
  let down := monthUnderflow up.1 up.2
  let month := down.1
  let year := down.2
  let maxDay := daysInJalaliMonth year month
  let day := if day > maxDay then maxDay else day
  { Year := year, Month := month, Day := day }

/-- Source: `AddYears` adds n years to the date and returns a new JalaliDate. -/
def JalaliDate.AddYears (j : JalaliDate) (n : Int) : JalaliDate :=
  let year := j.Year + n
  let month := j.Month
  let day := j.Day
  let maxDay := daysInJalaliMonth year month
  let day := if day > maxDay then maxDay else day
  { Year := year, Month := month, Day := day }

/-- Source: `Sub` returns the duration between two JalaliDates (nanoseconds). -/
def JalaliDate.Sub (j other : JalaliDate) : Int :=
  let t1 := j.ToGregorian
  let t2 := other.ToGregorian
  t1.Sub t2

/-- Source: `DaysBetween` returns the number of days between two JalaliDates.  The float
expression `int(duration.Hours() / 24)` is read as the exact quotient of the nanosecond count by
the 86400000000000 nanoseconds of a day, truncated toward zero; the durations that reach it are
whole days, where the float computation is exact, or one of the two extreme durations, where
both readings give 106751 and -106751. -/
def JalaliDate.DaysBetween (j other : JalaliDate) : Int :=
  let duration := j.Sub other
  Int.tdiv duration 86400000000000

/-- Source: `Before` returns true if j is before other. -/
def JalaliDate.Before (j other : JalaliDate) : Bool :=
  if j.Year ≠ other.Year then decide (j.Year < other.Year)
  else if j.Month ≠ other.Month then decide (j.Month < other.Month)
  else decide (j.Day < other.Day)

/-- Source: `After` returns true if j is after other. -/
def JalaliDate.After (j other : JalaliDate) : Bool :=
  if j.Year ≠ other.Year then decide (j.Year > other.Year)
  else if j.Month ≠ other.Month then decide (j.Month > other.Month)
  else decide (j.Day > other.Day)

/-- Source: `Equal` returns true if j equals other. -/
def JalaliDate.Equal (j other : JalaliDate) : Bool :=
  decide (j.Year = other.Year ∧ j.Month = other.Month ∧ j.Day = other.Day)

/-- Loop of `DayOfYear`: `for m := 1; m < j.Month; m++ { days += daysInJalaliMonth(j.Year, m) }`,
from the state `(m, days)`. -/
def dayOfYearLoop (year month m days : Int) : Int :=
  if m < month then dayOfYearLoop year month (m + 1) (days + daysInJalaliMonth year m)
  else days
termination_by (month - m).toNat
decreasing_by omega

/-- Source: `DayOfYear` returns the day of the year (1-365 or 1-366). -/
def JalaliDate.DayOfYear (j : JalaliDate) : Int :=
  let days := dayOfYearLoop j.Year j.Month 1 0
  days + j.Day

/-- Source: `StartOfMonth` returns the first day of the month. -/
def JalaliDate.StartOfMonth (j : JalaliDate) : JalaliDate :=
  { Year := j.Year, Month := j.Month, Day := 1 }

/-- Source: `EndOfMonth` returns the last day of the month. -/
def JalaliDate.EndOfMonth (j : JalaliDate) : JalaliDate :=
  let maxDay := daysInJalaliMonth j.Year j.Month
  { Year := j.Year, Month := j.Month, Day := maxDay }

/-- Source: `StartOfYear` returns the first day of the year (1 Farvardin). -/
def JalaliDate.StartOfYear (j : JalaliDate) : JalaliDate :=
  { Year := j.Year, Month := 1, Day := 1 }

/-- Source: `EndOfYear` returns the last day of the year (29 or 30 Esfand). -/
def JalaliDate.EndOfYear (j : JalaliDate) : JalaliDate :=
  let maxDay := daysInJalaliMonth j.Year 12
  { Year := j.Year, Month := 12, Day := maxDay }

/-! ## locale.go -/

/-- Source: `MonthName` represents a month name in different languages. -/
structure MonthName where
  Persian : String
  English : String
deriving DecidableEq, Repr

/-- Source: Persian month names (1-indexed, so 0 is placeholder). -/
def persianMonthNames : List MonthName :=
  [ { Persian := "", English := "" },
    { Persian := "فروردین", English := "Farvardin" },
    { Persian := "اردیبهشت", English := "Ordibehesht" },
    { Persian := "خرداد", English := "Khordad" },
    { Persian := "تیر", English := "Tir" },
    { Persian := "مرداد", English := "Mordad" },
    { Persian := "شهریور", English := "Shahrivar" },
    { Persian := "مهر", English := "Mehr" },
    { Persian := "آبان", English := "Aban" },
    { Persian := "آذر", English := "Azar" },
    { Persian := "دی", English := "Dey" },
    { Persian := "بهمن", English := "Bahman" },
    { Persian := "اسفند", English := "Esfand" } ]

/-- Source: `GetMonthNamePersian` returns the Persian name of a month (1-12). -/
def GetMonthNamePersian (month : Int) : String :=
  if month < 1 ∨ month > 12 then ""
  else (persianMonthNames.getD month.toNat { Persian := "", English := "" }).Persian

/-- Source: `GetMonthNameEnglish` returns the English transliteration of a month name
(1-12). -/
def GetMonthNameEnglish (month : Int) : String :=
  if month < 1 ∨ month > 12 then ""
  else (persianMonthNames.getD month.toNat { Persian := "", English := "" }).English

/-! ## format.go -/

/-- Source: `LayoutLongEnglish` is the long format with English month name. -/
def LayoutLongEnglish : String := "dd MMM yyyy"

/-- Source: `Format` formats the JalaliDate according to the given layout, by eight successive
replacements on the whole intermediate result. -/
def JalaliDate.Format (j : JalaliDate) (layout : String) : String :=
  let result := layout
  let result := ReplaceAll result "yyyy" (sprintf0D 4 j.Year)
  let result := ReplaceAll result "yy" (sprintf0D 2 (Int.tmod j.Year 100))
  let result := ReplaceAll result "MMMM" (GetMonthNamePersian j.Month)
  let result := ReplaceAll result "MMM" (GetMonthNameEnglish j.Month)
  let result := ReplaceAll result "MM" (sprintf0D 2 j.Month)
  let result := ReplaceAll result "M" (sprintfD j.Month)
  let result := ReplaceAll result "dd" (sprintf0D 2 j.Day)
  let result := ReplaceAll result "d" (sprintfD j.Day)
  result

/-! ## util.go -/

/-- Source: `DaysInMonth` returns the number of days in a given Jalali month and year. -/
def DaysInMonth (year month : Int) : Int := daysInJalaliMonth year month

/-- Source: `IsLeapYear` checks if a Jalali year is a leap year. -/
def IsLeapYear (year : Int) : Bool := isJalaliLeap year

/-- Source: `DaysInYear` returns the number of days in a Jalali year (365 or 366). -/
def DaysInYear (year : Int) : Int := if isJalaliLeap year = true then 366 else 365

/-- Source: `MonthsBetween` calculates the number of months between two dates. -/
def MonthsBetween (src dst : JalaliDate) : Int :=
  let months := (dst.Year - src.Year) * 12 + (dst.Month - src.Month)
  if dst.Day < src.Day then months - 1 else months

/-- Source: `YearsBetween` calculates the number of complete years between two dates. -/
def YearsBetween (src dst : JalaliDate) : Int :=
  let years := dst.Year - src.Year
  if dst.Month < src.Month ∨ (dst.Month = src.Month ∧ dst.Day < src.Day) then years - 1
  else years

/-! ## Truncated division -/

/-- Truncated and floor division agree on a non-negative dividend. -/
theorem tdiv_of_nonneg {a b : Int} (ha : 0 ≤ a) (hb : 0 ≤ b) : Int.tdiv a b = a / b :=
  Int.tdiv_eq_ediv ha hb

/-- Truncated division of a non-positive dividend, in floor arithmetic. -/
theorem tdiv_of_nonpos {a b : Int} (ha : a ≤ 0) (hb : 0 ≤ b) : Int.tdiv a b = -((-a) / b) := by
  have h := Int.neg_tdiv (-a) b
  rw [Int.neg_neg] at h
  rw [h, Int.tdiv_eq_ediv (by omega) hb]

/-- The truncated remainder in terms of the truncated quotient. -/
theorem tmod_eq_sub (a b : Int) : Int.tmod a b = a - b * Int.tdiv a b := by
  have := Int.tmod_add_tdiv a b
  omega

/-! ## The Jalali conversions -/

/-- Splitting a day of the year into month and day and folding it back; truncation keeps
this exact even slightly below day 1. -/
theorem monthDay_fold (base yday : Int) (h : -29 ≤ yday) :
    (if yday ≤ 186 then
        jalaliToJDN base (1 + Int.tdiv (yday - 1) 31) (Int.tmod (yday - 1) 31 + 1)
      else jalaliToJDN base (7 + Int.tdiv (yday - 187) 30) (Int.tmod (yday - 187) 30 + 1))
      = jalaliToJDN base 1 1 + (yday - 1) := by
  split
  · rw [tmod_eq_sub]
    rcases Int.le_total 0 (yday - 1) with h1 | h1
    · rw [tdiv_of_nonneg h1 (by omega)]
      simp only [jalaliToJDN]
      split <;> split <;> omega
    · rw [tdiv_of_nonpos h1 (by omega)]
      simp only [jalaliToJDN]
      split <;> split <;> omega
  · rw [tmod_eq_sub, tdiv_of_nonneg (by omega) (by omega)]
    simp only [jalaliToJDN]
    split <;> split <;> omega

/-- The sign correction of `jdnToJalali` turns the truncated remainder by the cycle length
into the non-negative remainder. -/
theorem floorFix_mod (a : Int) :
    (if Int.tmod a 1029983 < 0 then Int.tmod a 1029983 + 1029983 else Int.tmod a 1029983)
      = a % 1029983 := by
  rw [tmod_eq_sub]
  rcases Int.le_total 0 a with h | h
  · rw [tdiv_of_nonneg h (by omega)]; split <;> omega
  · rw [tdiv_of_nonpos h (by omega)]; split <;> omega

/-- The sign correction of `jdnToJalali` turns the truncated quotient by the cycle length
into the floor quotient. -/
theorem floorFix_div (a : Int) :
    (if Int.tmod a 1029983 < 0 then Int.tdiv a 1029983 - 1 else Int.tdiv a 1029983)
      = a / 1029983 := by
  rw [tmod_eq_sub]
  rcases Int.le_total 0 a with h | h
  · rw [tdiv_of_nonneg h (by omega)]; split <;> omega
  · rw [tdiv_of_nonpos h (by omega)]; split <;> omega

/-- First day of the year that is `y` years (0 ≤ y < 2820) into grand cycle `c ≥ 0`. -/
theorem yearStart_cycle (y c : Int) (hy : 0 ≤ y) (hy2 : y < 2820) (hc : 0 ≤ c) :
    jalaliToJDN (y + 1 + 2820 * c + 474) 1 1
      = 2121446 + 1029983 * c + 365 * y + 31 * y / 128 := by
  simp only [jalaliToJDN, jalaliEpoch]
  rw [tmod_eq_sub, tdiv_of_nonneg (a := y + 1 + 2820 * c + 474  - 474) (by omega) (by omega)]
  rw [tdiv_of_nonneg (by omega) (by omega)]
  by_cases h : y = 2819
  · subst h
    have : (2819 + 1 + 2820 * c + 474 - 474) / 2820 = c + 1 := by omega
    rw [this]; omega
  · have : (y + 1 + 2820 * c + 474 - 474) / 2820 = c := by omega
    rw [this]; omega

/-- The year estimate of `jdnToJalali` never overshoots. -/
theorem yearEstimate_le (r : Int) (h0 : 0 ≤ r) (h1 : r < 1029982) :
    let y := (2816 * (r % 366) + 2134 * (r / 366) + 2815) / 1028522 + r / 366
    0 ≤ y ∧ y < 2820 ∧ 365 * y + 31 * y / 128 ≤ r := by
  intro y
  have hy : y = (2816 * r + 2815) / 1028522 := by omega
  refine ⟨by omega, by omega, by omega⟩


/-- A Jalali day number is the first day of its year plus the month and day offsets. -/
theorem jalaliToJDN_offset (jy jm jd : Int) :
    jalaliToJDN jy jm jd
      = jalaliToJDN jy 1 1 + (jd - 1)
        + (if jm ≤ 7 then (jm - 1) * 31 else (jm - 1) * 30 + 6) := by
  simp only [jalaliToJDN]
  split <;> simp <;> omega

/-- In the grand cycle before year 475 the year found by `jdnToJalali` (after its step over
year zero) starts no later than the true start of the cycle year. -/
theorem yearStart_prev (y : Int) (hy : 0 ≤ y) (hy2 : y < 2820) :
    jalaliToJDN (if y + 1 + 2820 * (-1) + 474 ≤ 0 then y + 1 + 2820 * (-1) + 474 - 1
        else y + 1 + 2820 * (-1) + 474) 1 1
      ≤ 1091463 + 365 * y + 31 * y / 128 + 1 := by
  by_cases hy3 : y + 1 + 2820 * (-1) + 474 ≤ 0
  · rw [if_pos hy3]
    simp only [jalaliToJDN, jalaliEpoch]
    rw [tmod_eq_sub,
      tdiv_of_nonpos (a := y + 1 + 2820 * (-1) + 474 - 1 - 474) (by omega) (by omega)]
    by_cases h : y = 0
    · subst h; simp; decide
    · have : (-(y + 1 + 2820 * (-1) + 474 - 1 - 474)) / 2820 = 0 := by omega
      rw [this, tdiv_of_nonpos (by omega) (by omega)]
      omega
  · rw [if_neg hy3]
    simp only [jalaliToJDN, jalaliEpoch]
    rw [tmod_eq_sub,
      tdiv_of_nonpos (a := y + 1 + 2820 * (-1) + 474 - 474) (by omega) (by omega)]
    have : (-(y + 1 + 2820 * (-1) + 474 - 474)) / 2820 = 0 := by omega
    rw [this, tdiv_of_nonneg (by omega) (by omega)]
    omega

/-- Converting a day number to a Jalali date and back is the identity from day 1091463 on
(the first day of the grand cycle that precedes Jalali year 475). -/
theorem jalaliToJDN_jdnToJalali (n : Int) (h : 1091463 ≤ n) :
    jalaliToJDN (jdnToJalali n).1 (jdnToJalali n).2.1 (jdnToJalali n).2.2 = n := by
  have h475 : jalaliToJDN 475 1 1 = 2121446 := by decide
  unfold jdnToJalali
  simp only [h475, floorFix_mod, floorFix_div]
  have hr0 : 0 ≤ (n - 2121446) % 1029983 := by omega
  have hr1 : (n - 2121446) % 1029983 < 1029983 := by omega
  have hc : -1 ≤ (n - 2121446) / 1029983 := by omega
  have hn : n = 2121446 + 1029983 * ((n - 2121446) / 1029983) + (n - 2121446) % 1029983 := by
    omega
  generalize (n - 2121446) % 1029983 = r at *
  generalize (n - 2121446) / 1029983 = c at *
  split
  · rename_i hr
    subst hr
    rcases (show c = -1 ∨ 0 ≤ c by omega) with hc1 | hc1
    · subst hc1; subst hn; decide
    · have h1 := yearStart_cycle 2819 c (by omega) (by omega) hc1
      rw [if_neg (by omega)]
      have h2 : (2820 : Int) + 2820 * c + 474 = 2819 + 1 + 2820 * c + 474 := by omega
      simp only [h2]
      rw [jalaliToJDN_offset, h1]
      simp; omega
  · rename_i hr
    rw [tdiv_of_nonneg (a := r) hr0 (by omega), tmod_eq_sub r,
      tdiv_of_nonneg (a := r) hr0 (by omega)]
    have hmod : r - 366 * (r / 366) = r % 366 := by omega
    rw [hmod, tdiv_of_nonneg (by omega) (by omega)]
    obtain ⟨e0, e1, e2⟩ := yearEstimate_le r hr0 (by omega)
    generalize hy : (2816 * (r % 366) + 2134 * (r / 366) + 2815) / 1028522 + r / 366 = y at *
    have hjy : (2816 * (r % 366) + 2134 * (r / 366) + 2815) / 1028522 + (r / 366 + 1)
        + 2820 * c + 474 = y + 1 + 2820 * c + 474 := by omega
    rw [hjy]
    have key : jalaliToJDN (if y + 1 + 2820 * c + 474 ≤ 0 then y + 1 + 2820 * c + 474 - 1
        else y + 1 + 2820 * c + 474) 1 1 ≤ n + 1 := by
      rcases (show c = -1 ∨ 0 ≤ c by omega) with hc1 | hc1
      · subst hc1
        have := yearStart_prev y e0 e1
        omega
      · rw [if_neg (by omega), yearStart_cycle y c e0 e1 hc1]
        omega
    generalize (if y + 1 + 2820 * c + 474 ≤ 0 then y + 1 + 2820 * c + 474 - 1
        else y + 1 + 2820 * c + 474) = jy at *
    have hf := monthDay_fold jy (n - jalaliToJDN jy 1 1 + 1) (by omega)
    split
    · rename_i hd
      rw [if_pos hd] at hf
      simp only [hf]; omega
    · rename_i hd
      rw [if_neg hd] at hf
      simp only [hf]; omega

/-- Inside the grand cycle 475..3293 the leap rule `isJalaliLeap` holds for a year exactly when
the PREVIOUS year has 366 days in `jalaliToJDN`: the rule is one year late. -/
theorem isJalaliLeap_iff_previous_year_long (y : Int) (h1 : 475 ≤ y) (h2 : y ≤ 3293) :
    isJalaliLeap y = true ↔ jalaliToJDN y 1 1 - jalaliToJDN (y - 1) 1 1 = 366 := by
  simp only [isJalaliLeap, jalaliToJDN, jalaliEpoch, decide_eq_true_eq]
  rw [tmod_eq_sub (y - 474), tmod_eq_sub (y - 1 - 474), tmod_eq_sub (_ * 682 - 110),
    tdiv_of_nonneg (a := y - 474) (by omega) (by omega),
    tdiv_of_nonneg (a := y - 1 - 474) (by omega) (by omega)]
  have e1 : (y - 474) / 2820 = 0 := by omega
  have e2 : (y - 1 - 474) / 2820 = 0 := by omega
  rw [e1, e2, tdiv_of_nonneg (a := (474 + (y - 474 - 2820 * 0)) * 682 - 110) (by omega) (by omega),
    tdiv_of_nonneg (a := (474 + (y - 1 - 474 - 2820 * 0)) * 682 - 110) (by omega) (by omega)]
  constructor <;> intro h <;> omega

/-! ## The library calendar -/

/-- Inside the usual month range `Time.Date` does not normalise. -/
theorem Date_days (y m d : Int) (h1 : 1 ≤ m) (h2 : m ≤ 12) :
    (Time.Date y m d).days = 365 * (y - 1) + (y - 1) / 4 - (y - 1) / 100 + (y - 1) / 400
      + daysBefore m + (if gregorianLeap y = true ∧ 3 ≤ m then 1 else 0) + (d - 1) := by
  have e1 : (m - 1) / 12 = 0 := by omega
  have e2 : (m - 1) % 12 + 1 = m := by omega
  simp only [Time.Date, e1, e2, Int.add_zero]

/-- Leap days up to and including year `y`, against leap days before year `y`. -/
theorem leapCount_succ (y : Int) :
    (y - 1) / 4 - (y - 1) / 100 + (y - 1) / 400 + (if gregorianLeap y = true then 1 else 0)
      = y / 4 - y / 100 + y / 400 := by
  simp only [gregorianLeap, decide_eq_true_eq]
  split <;> omega

/-- Leap days up to a year written as century `b` and year of the century `d`, counted from
year -4800. -/
theorem leapCount_century (x b d : Int) (hx : x = 100 * b + d - 4800) (h0 : 0 ≤ d)
    (h1 : d ≤ 99) : x / 4 - x / 100 + x / 400 = 24 * b + d / 4 + b / 4 - 1164 := by
  omega

/-- Day count of a date given by a century, a year of the century and a March-based month. -/
theorem Date_of_marchBased (b d e mi : Int) (hd0 : 0 ≤ d) (hd1 : d ≤ 99) (hm0 : 0 ≤ mi)
    (hm1 : mi ≤ 11) :
    (Time.Date (100 * b + d - 4800 + mi / 10) (mi + 3 - 12 * (mi / 10))
      (e - (153 * mi + 2) / 5 + 1)).days
      = 36524 * b + b / 4 + 365 * d + d / 4 + e - 1753470 := by
  rw [Date_days _ _ _ (by omega) (by omega)]
  have hm : mi = 0 ∨ mi = 1 ∨ mi = 2 ∨ mi = 3 ∨ mi = 4 ∨ mi = 5 ∨ mi = 6 ∨ mi = 7 ∨ mi = 8
      ∨ mi = 9 ∨ mi = 10 ∨ mi = 11 := by omega
  generalize hy : 100 * b + d - 4800 + mi / 10 = y
  have h1 := leapCount_succ y
  rcases hm with h | h | h | h | h | h | h | h | h | h | h | h <;> subst h
  case inr.inr.inr.inr.inr.inr.inr.inr.inr.inr.inl =>
    have h2 := leapCount_century (y - 1) b d (by omega) hd0 hd1
    norm_num [daysBefore]
    omega
  case inr.inr.inr.inr.inr.inr.inr.inr.inr.inr.inr =>
    have h2 := leapCount_century (y - 1) b d (by omega) hd0 hd1
    norm_num [daysBefore]
    omega
  all_goals
    have h2 := leapCount_century y b d (by omega) hd0 hd1
    norm_num [daysBefore]
    split at h1
    · rename_i hl; rw [if_pos hl]; omega
    · rename_i hl; rw [if_neg hl]; omega

/-- The instant rebuilt by `Time.Date` from a civil date is the instant itself. -/
theorem Date_civil (t : Time) : Time.Date t.civil.1 t.civil.2.1 t.civil.2.2 = t := by
  obtain ⟨n⟩ := t
  have key : (Time.Date (Time.civil ⟨n⟩).1 (Time.civil ⟨n⟩).2.1
      (Time.civil ⟨n⟩).2.2).days = n := by
    simp only [Time.civil]
    generalize hb : (4 * (n + 1753470) + 3) / 146097 = b
    generalize hc : n + 1753470 - 146097 * b / 4 = c
    generalize hd : (4 * c + 3) / 1461 = d
    generalize he : c - 1461 * d / 4 = e
    generalize hm : (5 * e + 2) / 153 = m
    have hc0 : 0 ≤ c := by omega
    have hc1 : c ≤ 36524 := by omega
    have hd0 : 0 ≤ d := by omega
    have hd1 : d ≤ 99 := by omega
    have he0 : 0 ≤ e := by omega
    have he1 : e ≤ 365 := by omega
    rw [Date_of_marchBased b d e m hd0 hd1 (by omega) (by omega)]
    have e1 : 146097 * b / 4 = 36524 * b + b / 4 := by omega
    have e2 : 1461 * d / 4 = 365 * d + d / 4 := by omega
    omega
  cases hD : Time.Date (Time.civil ⟨n⟩).1 (Time.civil ⟨n⟩).2.1 (Time.civil ⟨n⟩).2.2
  rw [hD] at key
  simp only at key
  rw [key]

/-- From day number -32044 on (1 March of year -4800) `jdnToGregorian` computes the civil date
of the library. -/
theorem jdnToGregorian_eq_civil (n : Int) (h : -32044 ≤ n) :
    jdnToGregorian n = Time.civil ⟨n - 1721426⟩ := by
  simp only [jdnToGregorian, Time.civil]
  have ha : n - 1721426 + 1753470 = n + 32044 := by omega
  rw [ha]
  generalize n + 32044 = a at *
  rw [tdiv_of_nonneg (a := 4 * a + 3) (by omega) (by omega)]
  generalize hb : (4 * a + 3) / 146097 = b
  have hb0 : 0 ≤ b := by omega
  rw [tdiv_of_nonneg (a := 146097 * b) (by omega) (by omega)]
  generalize hc : a - 146097 * b / 4 = c
  have hc0 : 0 ≤ c := by omega
  rw [tdiv_of_nonneg (a := 4 * c + 3) (by omega) (by omega)]
  generalize hd : (4 * c + 3) / 1461 = d
  have hd0 : 0 ≤ d := by omega
  rw [tdiv_of_nonneg (a := 1461 * d) (by omega) (by omega)]
  generalize he : c - 1461 * d / 4 = e
  have he0 : 0 ≤ e := by omega
  rw [tdiv_of_nonneg (a := 5 * e + 2) (by omega) (by omega)]
  generalize hm : (5 * e + 2) / 153 = m
  have hm0 : 0 ≤ m := by omega
  rw [tdiv_of_nonneg (a := 153 * m + 2) (by omega) (by omega),
    tdiv_of_nonneg (a := m) (by omega) (by omega)]

/-- On its domain of exactness `ToGregorian` is the instant of the Jalali day number. -/
theorem ToGregorian_days (jy jm jd : Int) (h : -32044 ≤ jalaliToJDN jy jm jd) :
    ToGregorian jy jm jd = ⟨jalaliToJDN jy jm jd - 1721426⟩ := by
  simp only [ToGregorian]
  rw [jdnToGregorian_eq_civil _ h]
  exact Date_civil _

/-- Closed form of the first loop of `AddMonths`. -/
theorem monthOverflow_eq (m y : Int) :
    monthOverflow m y
      = (if 12 < m then (m - 1) % 12 + 1 else m, if 12 < m then y + (m - 1) / 12 else y) := by
  induction m, y using monthOverflow.induct with
  | case1 m y h ih =>
    rw [monthOverflow, if_pos h, ih]
    by_cases h2 : 12 < m - 12
    · simp only [if_pos h2, if_pos h, Prod.mk.injEq]
      constructor <;> omega
    · simp only [if_neg h2, if_pos h, Prod.mk.injEq]
      constructor <;> omega
  | case2 m y h =>
    rw [monthOverflow, if_neg h, if_neg h, if_neg h]

/-- Closed form of the second loop of `AddMonths`. -/
theorem monthUnderflow_eq (m y : Int) :
    monthUnderflow m y
      = (if m < 1 then (m - 1) % 12 + 1 else m, if m < 1 then y + (m - 1) / 12 else y) := by
  induction m, y using monthUnderflow.induct with
  | case1 m y h ih =>
    rw [monthUnderflow, if_pos h, ih]
    by_cases h2 : m + 12 < 1
    · simp only [if_pos h2, if_pos h, Prod.mk.injEq]
      constructor <;> omega
    · simp only [if_neg h2, if_pos h, Prod.mk.injEq]
      constructor <;> omega
  | case2 m y h =>
    rw [monthUnderflow, if_neg h, if_neg h, if_neg h]

/-- Both loops of `AddMonths` together bring the month into 1..12 by floor division. -/
theorem monthCarry_eq (m y : Int) :
    monthUnderflow (monthOverflow m y).1 (monthOverflow m y).2
      = ((m - 1) % 12 + 1, y + (m - 1) / 12) := by
  rw [monthOverflow_eq, monthUnderflow_eq]
  by_cases h1 : 12 < m
  · have h3 : ¬ ((m - 1) % 12 + 1 < 1) := by omega
    simp only [if_pos h1, if_neg h3]
  · simp only [if_neg h1]
    by_cases h2 : m < 1
    · simp only [if_pos h2]
    · simp only [if_neg h2, Prod.mk.injEq]
      constructor <;> omega

/-- Closed form of `AddMonths`. -/
theorem AddMonths_eq (j : JalaliDate) (n : Int) :
    j.AddMonths n
      = { Year := j.Year + (j.Month + n - 1) / 12,
          Month := (j.Month + n - 1) % 12 + 1,
          Day := if j.Day > daysInJalaliMonth (j.Year + (j.Month + n - 1) / 12)
                ((j.Month + n - 1) % 12 + 1)
              then daysInJalaliMonth (j.Year + (j.Month + n - 1) / 12)
                ((j.Month + n - 1) % 12 + 1)
              else j.Day } := by
  simp only [JalaliDate.AddMonths, monthCarry_eq]

/-- What passing `Validate` means. -/
theorem Validate_none {j : JalaliDate} (h : j.Validate = none) :
    1 ≤ j.Month ∧ j.Month ≤ 12 ∧ 1 ≤ j.Day ∧ j.Day ≤ daysInJalaliMonth j.Year j.Month := by
  simp only [JalaliDate.Validate] at h
  split at h
  · cases h
  · split at h
    · cases h
    · omega

/-- The month-length table inside the month range. -/
theorem daysInJalaliMonth_eq (y m : Int) (h1 : 1 ≤ m) (h2 : m ≤ 12) :
    daysInJalaliMonth y m
      = if m ≤ 6 then 31 else if m ≤ 11 then 30 else if isJalaliLeap y = true then 30 else 29 := by
  simp only [daysInJalaliMonth]
  rw [if_neg (by omega)]

/-! ## Durations, day of year and month ends -/

/-- The days of a duration between two instants: the difference of the day counts, cut at
106751 days on either side by the range of `time.Duration`. -/
theorem Sub_days (t u : Time) :
    Int.tdiv (t.Sub u) 86400000000000 = max (-106751) (min 106751 (t.days - u.days)) := by
  simp only [Time.Sub, maxDuration, minDuration]
  generalize t.days - u.days = x
  by_cases h1 : 9223372036854775807 < x * 86400000000000
  · rw [if_pos h1]
    have e : Int.tdiv 9223372036854775807 86400000000000 = 106751 := by decide
    rw [e]
    omega
  · rw [if_neg h1]
    by_cases h2 : x * 86400000000000 < -9223372036854775808
    · rw [if_pos h2]
      have e : Int.tdiv (-9223372036854775808) 86400000000000 = -106751 := by decide
      rw [e]
      omega
    · rw [if_neg h2, Int.mul_tdiv_cancel _ (by decide)]
      omega

/-- Inside the range of `time.Duration` and of `jdnToGregorian`, `DaysBetween` is the
difference of the day numbers. -/
theorem DaysBetween_eq_jdn (a b : JalaliDate) (ha : -32044 ≤ jalaliToJDN a.Year a.Month a.Day)
    (hb : -32044 ≤ jalaliToJDN b.Year b.Month b.Day)
    (h1 : jalaliToJDN a.Year a.Month a.Day - jalaliToJDN b.Year b.Month b.Day ≤ 106751)
    (h2 : -106751 ≤ jalaliToJDN a.Year a.Month a.Day - jalaliToJDN b.Year b.Month b.Day) :
    a.DaysBetween b = jalaliToJDN a.Year a.Month a.Day - jalaliToJDN b.Year b.Month b.Day := by
  simp only [JalaliDate.DaysBetween, JalaliDate.Sub, JalaliDate.ToGregorian, Sub_days,
    ToGregorian_days _ _ _ ha, ToGregorian_days _ _ _ hb]
  omega

/-- The month offset used by `jalaliToJDN` is what the loop of `DayOfYear` adds up. -/
theorem dayOfYearLoop_eq (y month m days : Int) (h1 : 1 ≤ m) (h2 : m ≤ month)
    (h3 : month ≤ 12) :
    dayOfYearLoop y month m days
      = days + (if month ≤ 7 then (month - 1) * 31 else (month - 1) * 30 + 6)
          - (if m ≤ 7 then (m - 1) * 31 else (m - 1) * 30 + 6) := by
  induction m, days using dayOfYearLoop.induct y month with
  | case1 m days hlt ih =>
    rw [dayOfYearLoop, if_pos hlt, ih (by omega) (by omega),
      daysInJalaliMonth_eq y m h1 (by omega)]
    split <;> split <;> split <;> split <;> omega
  | case2 m days hlt =>
    have e : m = month := by omega
    subst e
    rw [dayOfYearLoop, if_neg hlt]
    omega

/-- Closed form of `DayOfYear` for a month in 1..12. -/
theorem DayOfYear_eq (j : JalaliDate) (h1 : 1 ≤ j.Month) (h2 : j.Month ≤ 12) :
    j.DayOfYear
      = (if j.Month ≤ 7 then (j.Month - 1) * 31 else (j.Month - 1) * 30 + 6) + j.Day := by
  simp only [JalaliDate.DayOfYear]
  rw [dayOfYearLoop_eq j.Year j.Month 1 0 (by omega) h1 h2]
  simp

/-- Every month of the table has at least 29 and at most 31 days. -/
theorem daysInJalaliMonth_bounds (y m : Int) (h1 : 1 ≤ m) (h2 : m ≤ 12) :
    29 ≤ daysInJalaliMonth y m ∧ daysInJalaliMonth y m ≤ 31 := by
  rw [daysInJalaliMonth_eq y m h1 h2]
  constructor <;> split <;> try split <;> try split
  all_goals omega

/-- How `Validate` passes. -/
theorem Validate_of_range {j : JalaliDate} (h1 : 1 ≤ j.Month) (h2 : j.Month ≤ 12)
    (h3 : 1 ≤ j.Day) (h4 : j.Day ≤ daysInJalaliMonth j.Year j.Month) : j.Validate = none := by
  simp only [JalaliDate.Validate]
  rw [if_neg (by omega), if_neg (by omega)]

/-- The first day of a Jalali year from year 1 on is far above the day number -32044. -/
theorem yearStart_lower (jy : Int) (h : 1 ≤ jy) : 1948321 ≤ jalaliToJDN jy 1 1 := by
  simp only [jalaliToJDN, jalaliEpoch]
  rw [tmod_eq_sub]
  rcases Int.lt_or_le jy 474 with h1 | h1
  · rw [tdiv_of_nonpos (a := jy - 474) (by omega) (by omega)]
    have e : (-(jy - 474)) / 2820 = 0 := by omega
    rw [e, tdiv_of_nonneg (by omega) (by omega)]
    split <;> omega
  · rw [tdiv_of_nonneg (a := jy - 474) (by omega) (by omega),
      tdiv_of_nonneg (by omega) (by omega)]
    split <;> omega

/-- The fields of `After`, as a proposition. -/
theorem After_eq_true_iff (x b : JalaliDate) :
    x.After b = true
      ↔ (b.Year < x.Year
        ∨ (x.Year = b.Year ∧ (b.Month < x.Month ∨ (x.Month = b.Month ∧ b.Day < x.Day)))) := by
  simp only [JalaliDate.After]
  by_cases hy : x.Year = b.Year
  · rw [if_neg (not_not.mpr hy)]
    by_cases hm : x.Month = b.Month
    · rw [if_neg (not_not.mpr hm), decide_eq_true_eq]
      constructor
      · intro h; exact Or.inr ⟨hy, Or.inr ⟨hm, h⟩⟩
      · intro h; omega
    · rw [if_pos hm, decide_eq_true_eq]
      constructor
      · intro h; exact Or.inr ⟨hy, Or.inl h⟩
      · intro h; omega
  · rw [if_pos hy, decide_eq_true_eq]
    constructor
    · intro h; exact Or.inl h
    · intro h; omega

/-- The month in which `AddMonths` lands is fixed by the month count. -/
theorem AddMonths_land (a : JalaliDate) (k Y M : Int) (h1 : 1 ≤ M) (h2 : M ≤ 12)
    (h : 12 * Y + M = 12 * a.Year + a.Month + k) :
    a.AddMonths k
      = { Year := Y, Month := M,
          Day := if a.Day > daysInJalaliMonth Y M then daysInJalaliMonth Y M else a.Day } := by
  have e1 : a.Year + (a.Month + k - 1) / 12 = Y := by omega
  have e2 : (a.Month + k - 1) % 12 + 1 = M := by omega
  rw [AddMonths_eq, e1, e2]

/-- From year 474 on the leap rule does repeat after 2820 years. -/
theorem isJalaliLeap_add_2820 (y : Int) (h : 474 ≤ y) :
    isJalaliLeap (y + 2820) = isJalaliLeap y := by
  simp only [isJalaliLeap]
  have e : Int.tmod (y + 2820 - 474) 2820 = Int.tmod (y - 474) 2820 := by
    rw [tmod_eq_sub, tmod_eq_sub, tdiv_of_nonneg (a := y + 2820 - 474) (by omega) (by omega),
      tdiv_of_nonneg (a := y - 474) (by omega) (by omega)]
    omega
  rw [e]

/-! ## Claims -/

/-- C1 (refuted on the code): the Jalali round trip fails at 30 Esfand 1405.  The date is
valid for the package (`DaysInMonth 1405 12 = 30`, since `isJalaliLeap 1405` holds), yet
`FromGregorian (ToGregorian 1405 12 30)` is `(1406, 1, 1)`: the day-number formula gives year
1405 only 365 days. -/
theorem C1_roundtrip_breaks_on_30_Esfand_1405 :
    DaysInMonth 1405 12 = 30
      ∧ (Time.civil (ToGregorian 1405 12 30)) = (2027, 3, 21)
      ∧ FromGregorian (ToGregorian 1405 12 30) = (1406, 1, 1) := by
  decide

/-- C3 (refuted on the code): in the cycle 474..3293 the leap rule and the day-number formula
disagree at year 1404.  `IsLeapYear 1404` is false although the conversion gives the year 366
days, and `IsLeapYear 1405` is true although the conversion gives that year 365 days. -/
theorem C3_leap_rule_disagrees_with_jdn_at_1404 :
    IsLeapYear 1404 = false
      ∧ jalaliToJDN 1405 1 1 - jalaliToJDN 1404 1 1 = 366
      ∧ IsLeapYear 1405 = true
      ∧ jalaliToJDN 1406 1 1 - jalaliToJDN 1405 1 1 = 365 := by
  decide

/-- C4 (refuted on the code): the valid Gregorian date 2026-03-20 is converted by
`FromGregorianDate` to 30 Esfand 1404, which `Validate` rejects with `ErrInvalidDay` because
`daysInJalaliMonth 1404 12` is 29. -/
theorem C4_fromGregorianDate_invalid_on_2026_03_20 :
    gregorianValid 2026 3 20
      ∧ FromGregorianDate (Time.Date 2026 3 20) = ⟨1404, 12, 30⟩
      ∧ (FromGregorianDate (Time.Date 2026 3 20)).Validate = some Error.ErrInvalidDay
      ∧ daysInJalaliMonth 1404 12 = 29 := by
  decide

/-- C5: `jalaliToJDN 475 1 1` is 2121446, and for every day number `n` from that day on
converting `n` to a Jalali date with `jdnToJalali` and back with `jalaliToJDN` returns `n`. -/
theorem C5_jdnToJalali_right_inverse (n : Int) (h : jalaliToJDN 475 1 1 ≤ n) :
    jalaliToJDN 475 1 1 = 2121446
      ∧ jalaliToJDN (jdnToJalali n).1 (jdnToJalali n).2.1 (jdnToJalali n).2.2 = n := by
  have h475 : jalaliToJDN 475 1 1 = 2121446 := by decide
  rw [h475] at h
  exact ⟨h475, jalaliToJDN_jdnToJalali n (by omega)⟩

/-- C5, instance: day number 2460755 (1 Farvardin 1404) is recovered. -/
theorem C5_jdnToJalali_right_inverse_witness :
    jalaliToJDN 475 1 1 ≤ 2460755
      ∧ (jalaliToJDN 475 1 1 = 2121446
        ∧ jalaliToJDN (jdnToJalali 2460755).1 (jdnToJalali 2460755).2.1
            (jdnToJalali 2460755).2.2 = 2460755) :=
  ⟨by decide, C5_jdnToJalali_right_inverse 2460755 (by decide)⟩

/-- C7: `FromGregorian` applied to the Gregorian date 2025-03-20 returns the Jalali date
(1404, 1, 1). -/
theorem C7_nowruz_1404 : FromGregorian (Time.Date 2025 3 20) = (1404, 1, 1) := by
  decide

/-- C8 (refuted on the code): `New 1404 12 30` does not succeed.  It returns the zero date with
`ErrInvalidDay`, because `isJalaliLeap 1404` is false; `New 1403 12 30` fails the same way. -/
theorem C8_new_1404_12_30_is_rejected :
    New 1404 12 30 = (⟨0, 0, 0⟩, some Error.ErrInvalidDay)
      ∧ isJalaliLeap 1404 = false
      ∧ New 1403 12 30 = (⟨0, 0, 0⟩, some Error.ErrInvalidDay) := by
  decide

/-- C9: for every triple of integers `(y, m, d)`, `Validate` returns `ErrInvalidMonth` exactly
when `m < 1` or `m > 12`; it returns `ErrInvalidDay` exactly when the month is in 1..12 and
`d < 1` or `d > DaysInMonth y m`; it returns no error exactly when the month is in 1..12 and the
day is in `1..DaysInMonth y m`, whatever the year.  `New y m d` returns the date `(y, m, d)`
with no error exactly when `Validate` passes, and its error is always the one of `Validate`. -/
theorem C9_validate_and_new (y m d : Int) :
    ((JalaliDate.Validate ⟨y, m, d⟩ = some Error.ErrInvalidMonth) ↔ (m < 1 ∨ m > 12))
      ∧ ((JalaliDate.Validate ⟨y, m, d⟩ = some Error.ErrInvalidDay)
          ↔ (1 ≤ m ∧ m ≤ 12 ∧ (d < 1 ∨ d > DaysInMonth y m)))
      ∧ ((JalaliDate.Validate ⟨y, m, d⟩ = none)
          ↔ (1 ≤ m ∧ m ≤ 12 ∧ 1 ≤ d ∧ d ≤ DaysInMonth y m))
      ∧ ((New y m d = (⟨y, m, d⟩, none)) ↔ (JalaliDate.Validate ⟨y, m, d⟩ = none))
      ∧ (New y m d).2 = JalaliDate.Validate ⟨y, m, d⟩ := by
  have hNew : (New y m d).2 = JalaliDate.Validate ⟨y, m, d⟩ := by
    simp only [New]
    cases JalaliDate.Validate ⟨y, m, d⟩ <;> rfl
  have hNew2 : (New y m d = (⟨y, m, d⟩, none))
      ↔ (JalaliDate.Validate ⟨y, m, d⟩ = none) := by
    constructor
    · intro h
      rw [← hNew, h]
    · intro h
      simp only [New, h]
  refine ⟨?_, ?_, ?_, hNew2, hNew⟩
  · simp only [JalaliDate.Validate, DaysInMonth]
    by_cases h1 : m < 1 ∨ m > 12
    · rw [if_pos h1]
      exact ⟨fun _ => h1, fun _ => rfl⟩
    · rw [if_neg h1]
      by_cases h2 : d < 1 ∨ d > daysInJalaliMonth y m
      · rw [if_pos h2]
        exact ⟨fun h => (by cases h), fun h => absurd h h1⟩
      · rw [if_neg h2]
        exact ⟨fun h => (by cases h), fun h => absurd h h1⟩
  · simp only [JalaliDate.Validate, DaysInMonth]
    by_cases h1 : m < 1 ∨ m > 12
    · rw [if_pos h1]
      exact ⟨fun h => (by cases h), fun h => by omega⟩
    · rw [if_neg h1]
      by_cases h2 : d < 1 ∨ d > daysInJalaliMonth y m
      · rw [if_pos h2]
        exact ⟨fun _ => ⟨by omega, by omega, h2⟩, fun _ => rfl⟩
      · rw [if_neg h2]
        exact ⟨fun h => (by cases h), fun h => absurd h.2.2 h2⟩
  · simp only [JalaliDate.Validate, DaysInMonth]
    by_cases h1 : m < 1 ∨ m > 12
    · rw [if_pos h1]
      exact ⟨fun h => (by cases h), fun h => by omega⟩
    · rw [if_neg h1]
      by_cases h2 : d < 1 ∨ d > daysInJalaliMonth y m
      · rw [if_pos h2]
        exact ⟨fun h => (by cases h), fun h => by omega⟩
      · rw [if_neg h2]
        exact ⟨fun _ => ⟨by omega, by omega, by omega, by omega⟩, fun _ => rfl⟩

/-- C11 (refuted on the code): 30 Esfand 1405 passes `Validate`, but adding one day and then
subtracting one day gives 1 Farvardin 1406, not the original date. -/
theorem C11_addDays_inverse_breaks_on_30_Esfand_1405 :
    JalaliDate.Validate ⟨1405, 12, 30⟩ = none
      ∧ JalaliDate.AddDays ⟨1405, 12, 30⟩ 1 = ⟨1406, 1, 2⟩
      ∧ JalaliDate.AddDays (JalaliDate.AddDays ⟨1405, 12, 30⟩ 1) (-1) = ⟨1406, 1, 1⟩ := by
  have h1 : JalaliDate.AddDays ⟨1405, 12, 30⟩ 1 = ⟨1406, 1, 2⟩ := by decide
  have h2 : JalaliDate.AddDays ⟨1406, 1, 2⟩ (-1) = ⟨1406, 1, 1⟩ := by decide
  refine ⟨by decide, h1, ?_⟩
  rw [h1]
  exact h2

/-- C12 (refuted on the code): 1 Farvardin 1404 and 1 Farvardin 1100 both pass `Validate` and
their day numbers differ by 111033, but `DaysBetween` returns 106751: the `time.Duration` that
`Sub` returns overflows and is cut at its largest value.  The cut starts at a distance of 106752
days (about 292 years): 18 Azar 1111 is 106752 days before 1 Farvardin 1404 and gives 106751
as well. -/
theorem C12_daysBetween_saturates_at_106751_days :
    JalaliDate.Validate ⟨1404, 1, 1⟩ = none
      ∧ JalaliDate.Validate ⟨1100, 1, 1⟩ = none
      ∧ JalaliDate.DaysBetween ⟨1404, 1, 1⟩ ⟨1100, 1, 1⟩ = 106751
      ∧ jalaliToJDN 1404 1 1 - jalaliToJDN 1100 1 1 = 111033
      ∧ JalaliDate.Validate ⟨1111, 9, 18⟩ = none
      ∧ JalaliDate.DaysBetween ⟨1404, 1, 1⟩ ⟨1111, 9, 18⟩ = 106751
      ∧ jalaliToJDN 1404 1 1 - jalaliToJDN 1111 9 18 = 106752 := by
  decide

/-- C13 (refuted on the code): 30 Esfand 1405 and 1 Farvardin 1406 both pass `Validate` and the
first is `Before` the second, yet `jalaliToJDN` gives both the same day number 2461486. -/
theorem C13_before_disagrees_with_jdn_on_30_Esfand_1405 :
    JalaliDate.Validate ⟨1405, 12, 30⟩ = none
      ∧ JalaliDate.Validate ⟨1406, 1, 1⟩ = none
      ∧ JalaliDate.Before ⟨1405, 12, 30⟩ ⟨1406, 1, 1⟩ = true
      ∧ jalaliToJDN 1405 12 30 = 2461486
      ∧ jalaliToJDN 1406 1 1 = 2461486 := by
  decide

/-- C14: for every JalaliDate `j` with month in 1..12 and every integer `n`, `j.AddMonths n`
(a total function: both loops terminate) has its month in 1..12, keeps the month count
`12 * year + month` shifted by `n`, and has the day `min j.Day (DaysInMonth year month)` of the
month reached; (1404,8,4) minus one month is (1404,7,4) and (1404,1,31) plus six months is
(1404,7,30). -/
theorem C14_addMonths (j : JalaliDate) (n : Int) (_h1 : 1 ≤ j.Month) (_h2 : j.Month ≤ 12) :
    1 ≤ (j.AddMonths n).Month ∧ (j.AddMonths n).Month ≤ 12
      ∧ 12 * (j.AddMonths n).Year + (j.AddMonths n).Month = 12 * j.Year + j.Month + n
      ∧ (j.AddMonths n).Day
          = min j.Day (DaysInMonth (j.AddMonths n).Year (j.AddMonths n).Month)
      ∧ JalaliDate.AddMonths ⟨1404, 8, 4⟩ (-1) = ⟨1404, 7, 4⟩
      ∧ JalaliDate.AddMonths ⟨1404, 1, 31⟩ 6 = ⟨1404, 7, 30⟩ := by
  refine ⟨?_, ?_, ?_, ?_, ?_, ?_⟩
  · rw [AddMonths_eq]; simp only; omega
  · rw [AddMonths_eq]; simp only; omega
  · rw [AddMonths_eq]; simp only; omega
  · rw [AddMonths_eq]
    simp only [DaysInMonth]
    split
    · rw [min_eq_right (by omega)]
    · rw [min_eq_left (by omega)]
  · rw [AddMonths_eq]; decide
  · rw [AddMonths_eq]; decide

/-- C14, instance: 4 Aban 1404 minus one month. -/
theorem C14_addMonths_witness :
    (1 : Int) ≤ 8 ∧ (8 : Int) ≤ 12
      ∧ (1 ≤ (JalaliDate.AddMonths ⟨1404, 8, 4⟩ (-1)).Month
        ∧ (JalaliDate.AddMonths ⟨1404, 8, 4⟩ (-1)).Month ≤ 12
        ∧ 12 * (JalaliDate.AddMonths ⟨1404, 8, 4⟩ (-1)).Year
            + (JalaliDate.AddMonths ⟨1404, 8, 4⟩ (-1)).Month = 12 * 1404 + 8 + -1
        ∧ (JalaliDate.AddMonths ⟨1404, 8, 4⟩ (-1)).Day
            = min 4 (DaysInMonth (JalaliDate.AddMonths ⟨1404, 8, 4⟩ (-1)).Year
                (JalaliDate.AddMonths ⟨1404, 8, 4⟩ (-1)).Month)
        ∧ JalaliDate.AddMonths ⟨1404, 8, 4⟩ (-1) = ⟨1404, 7, 4⟩
        ∧ JalaliDate.AddMonths ⟨1404, 1, 31⟩ 6 = ⟨1404, 7, 30⟩) :=
  ⟨by decide, by decide, C14_addMonths ⟨1404, 8, 4⟩ (-1) (by decide) (by decide)⟩

/-- C15: for every valid JalaliDate `j` and every integer `n` such that `j.Day` does not exceed
the number of days of the month reached by adding `n` months (no clamping),
`(j.AddMonths n).AddMonths (-n)` equals `j`. -/
theorem C15_addMonths_inverse (j : JalaliDate) (n : Int) (hv : j.Validate = none)
    (hc : j.Day ≤ DaysInMonth (j.AddMonths n).Year (j.AddMonths n).Month) :
    (j.AddMonths n).AddMonths (-n) = j := by
  obtain ⟨y, m, d⟩ := j
  have hm := Validate_none hv
  simp only at hm
  rw [AddMonths_eq] at hc
  simp only [DaysInMonth] at hc
  rw [AddMonths_eq ⟨y, m, d⟩ n]
  simp only
  rw [if_neg (by omega), AddMonths_eq]
  simp only
  have e1 : y + (m + n - 1) / 12 + ((m + n - 1) % 12 + 1 + -n - 1) / 12 = y := by omega
  have e2 : ((m + n - 1) % 12 + 1 + -n - 1) % 12 + 1 = m := by omega
  rw [e1, e2, if_neg (by omega)]

/-- C15, instance: 31 Farvardin 1404 plus and minus twelve months. -/
theorem C15_addMonths_inverse_witness :
    JalaliDate.Validate ⟨1404, 1, 31⟩ = none
      ∧ (31 : Int) ≤ DaysInMonth (JalaliDate.AddMonths ⟨1404, 1, 31⟩ 12).Year
          (JalaliDate.AddMonths ⟨1404, 1, 31⟩ 12).Month
      ∧ JalaliDate.AddMonths (JalaliDate.AddMonths ⟨1404, 1, 31⟩ 12) (-12) = ⟨1404, 1, 31⟩ :=
  ⟨by decide, by rw [AddMonths_eq]; decide,
    C15_addMonths_inverse ⟨1404, 1, 31⟩ 12 (by decide) (by rw [AddMonths_eq]; decide)⟩

/-- C16: for every valid JalaliDate `j` and every integer `n`, `j.AddYears n` has year
`j.Year + n` and the month of `j`; its day is 29 when `j` is 30 Esfand and `j.Year + n` is not a
leap year for `IsLeapYear`, and `j.Day` otherwise. -/
theorem C16_addYears (j : JalaliDate) (n : Int) (hv : j.Validate = none) :
    (j.AddYears n).Year = j.Year + n ∧ (j.AddYears n).Month = j.Month
      ∧ (j.AddYears n).Day
          = if j.Month = 12 ∧ j.Day = 30 ∧ IsLeapYear (j.Year + n) = false then 29
            else j.Day := by
  obtain ⟨y, m, d⟩ := j
  obtain ⟨hm1, hm2, hd1, hd2⟩ := Validate_none hv
  refine ⟨rfl, rfl, ?_⟩
  simp only [JalaliDate.AddYears, IsLeapYear]
  simp only at hm1 hm2 hd1 hd2
  rw [daysInJalaliMonth_eq _ m hm1 hm2] at hd2 ⊢
  by_cases h6 : m ≤ 6
  · have hne : ¬ (m = 12 ∧ d = 30 ∧ isJalaliLeap (y + n) = false) :=
      fun h => absurd h.1 (by omega)
    simp only [if_pos h6] at hd2 ⊢
    rw [if_neg (by omega), if_neg hne]
  · simp only [if_neg h6] at hd2 ⊢
    by_cases h11 : m ≤ 11
    · have hne : ¬ (m = 12 ∧ d = 30 ∧ isJalaliLeap (y + n) = false) :=
        fun h => absurd h.1 (by omega)
      simp only [if_pos h11] at hd2 ⊢
      rw [if_neg (by omega), if_neg hne]
    · simp only [if_neg h11] at hd2 ⊢
      have hm12 : m = 12 := by omega
      have hd30 : d ≤ 30 := by split at hd2 <;> omega
      cases hl : isJalaliLeap (y + n)
      · by_cases h30 : d = 30
        · have hyes : m = 12 ∧ d = 30 ∧ True := ⟨hm12, h30, trivial⟩
          simp only [Bool.false_eq_true, if_false]
          rw [if_pos (by omega), if_pos hyes]
        · have hne : ¬ (m = 12 ∧ d = 30 ∧ True) := fun h => h30 h.2.1
          simp only [Bool.false_eq_true, if_false]
          rw [if_neg (by omega), if_neg hne]
      · have hne : ¬ (m = 12 ∧ d = 30 ∧ true = false) := fun h => Bool.noConfusion h.2.2
        simp only [if_true]
        rw [if_neg (by omega), if_neg hne]

/-- C16, instance: 30 Esfand 1405 plus one year is 29 Esfand 1406. -/
theorem C16_addYears_witness :
    JalaliDate.Validate ⟨1405, 12, 30⟩ = none
      ∧ ((JalaliDate.AddYears ⟨1405, 12, 30⟩ 1).Year = 1405 + 1
        ∧ (JalaliDate.AddYears ⟨1405, 12, 30⟩ 1).Month = 12
        ∧ (JalaliDate.AddYears ⟨1405, 12, 30⟩ 1).Day
            = if (12 : Int) = 12 ∧ (30 : Int) = 30 ∧ IsLeapYear (1405 + 1) = false then 29
              else 30) :=
  ⟨by decide, C16_addYears ⟨1405, 12, 30⟩ 1 (by decide)⟩

/-- C17 (counterexample): the days between 4 Aban 1404 and 1 Farvardin 1404 are not 216. -/
theorem C17_daysBetween_is_not_216 :
    JalaliDate.DaysBetween ⟨1404, 8, 4⟩ ⟨1404, 1, 1⟩ ≠ 216 := by
  decide

/-- C17 (amended): `JalaliDate(1404, 8, 4).DaysBetween(JalaliDate(1404, 1, 1))` equals 219,
that is six months of 31 days, one month of 30 days and 4 - 1 days. -/
theorem C17_daysBetween_is_219 :
    JalaliDate.DaysBetween ⟨1404, 8, 4⟩ ⟨1404, 1, 1⟩ = 219
      ∧ (6 * 31 + 30 + (4 - 1) : Int) = 219 := by
  decide

/-- C18: for every pair of dates, `MonthsBetween from to` is
`(to.Year - from.Year) * 12 + (to.Month - from.Month)`, minus 1 exactly when
`to.Day < from.Day`; the months between (1404,1,1) and (1404,8,6) are 7. -/
theorem C18_monthsBetween (a b : JalaliDate) :
    MonthsBetween a b
        = (b.Year - a.Year) * 12 + (b.Month - a.Month) - (if b.Day < a.Day then 1 else 0)
      ∧ MonthsBetween ⟨1404, 1, 1⟩ ⟨1404, 8, 6⟩ = 7 := by
  refine ⟨?_, by decide⟩
  simp only [MonthsBetween]
  split <;> omega

/-- C19: for every pair of dates, `YearsBetween from to` is `to.Year - from.Year`, minus 1
exactly when `(to.Month, to.Day)` precedes `(from.Month, from.Day)` in lexicographic order; the
years between (1403,8,10) and (1404,8,4) are 0. -/
theorem C19_yearsBetween (a b : JalaliDate) :
    YearsBetween a b
        = (b.Year - a.Year)
          - (if b.Month < a.Month ∨ (b.Month = a.Month ∧ b.Day < a.Day) then 1 else 0)
      ∧ YearsBetween ⟨1403, 8, 10⟩ ⟨1404, 8, 4⟩ = 0 := by
  refine ⟨?_, by decide⟩
  simp only [YearsBetween]
  split <;> omega

/-- C20: for every year `y` and month `m`, `DaysInMonth y m` is 31 for `m` in 1..6, 30 for `m`
in 7..11, for `m = 12` it is 30 if `IsLeapYear y` and 29 otherwise, and 0 for `m` outside
1..12; and `IsLeapYear y` holds exactly when `DaysInMonth y 12 = 30`. -/
theorem C20_daysInMonth_table (y m : Int) :
    DaysInMonth y m
        = (if 1 ≤ m ∧ m ≤ 6 then 31
          else if 7 ≤ m ∧ m ≤ 11 then 30
          else if m = 12 then (if IsLeapYear y = true then 30 else 29)
          else 0)
      ∧ (IsLeapYear y = true ↔ DaysInMonth y 12 = 30) := by
  constructor
  · simp only [DaysInMonth, daysInJalaliMonth, IsLeapYear]
    by_cases h0 : m < 1 ∨ m > 12
    · rw [if_pos h0, if_neg (c := 1 ≤ m ∧ m ≤ 6) (by omega),
        if_neg (c := 7 ≤ m ∧ m ≤ 11) (by omega), if_neg (c := m = 12) (by omega)]
    · rw [if_neg h0]
      by_cases h6 : m ≤ 6
      · rw [if_pos h6, if_pos (c := 1 ≤ m ∧ m ≤ 6) (by omega)]
      · rw [if_neg h6, if_neg (c := 1 ≤ m ∧ m ≤ 6) (by omega)]
        by_cases h11 : m ≤ 11
        · rw [if_pos h11, if_pos (c := 7 ≤ m ∧ m ≤ 11) (by omega)]
        · rw [if_neg h11, if_neg (c := 7 ≤ m ∧ m ≤ 11) (by omega),
            if_pos (c := m = 12) (by omega)]
  · simp only [DaysInMonth, IsLeapYear]
    rw [daysInJalaliMonth_eq y 12 (by omega) (by omega), if_neg (by omega), if_neg (by omega)]
    cases isJalaliLeap y <;> simp

/-- C21: for every pair of valid JalaliDates `a` and `b`, `a.DaysBetween b` is the negative of
`b.DaysBetween a`; the cut of `time.Duration` at 106751 days is the same on both sides. -/
theorem C21_daysBetween_antisymmetric (a b : JalaliDate) (_ha : a.Validate = none)
    (_hb : b.Validate = none) : a.DaysBetween b = -(b.DaysBetween a) := by
  simp only [JalaliDate.DaysBetween, JalaliDate.Sub, Sub_days]
  omega

/-- C21, instance: 4 Aban 1404 and 1 Farvardin 1404. -/
theorem C21_daysBetween_antisymmetric_witness :
    JalaliDate.Validate ⟨1404, 8, 4⟩ = none ∧ JalaliDate.Validate ⟨1404, 1, 1⟩ = none
      ∧ JalaliDate.DaysBetween ⟨1404, 8, 4⟩ ⟨1404, 1, 1⟩
          = -(JalaliDate.DaysBetween ⟨1404, 1, 1⟩ ⟨1404, 8, 4⟩) :=
  ⟨by decide, by decide,
    C21_daysBetween_antisymmetric ⟨1404, 8, 4⟩ ⟨1404, 1, 1⟩ (by decide) (by decide)⟩

/-- C22 (refuted on the code): 4 Mordad 1404 is valid and its year is in 1000..9999, but
`Format` with `LayoutLongEnglish` gives "04 5or4a4 1404" and not "04 Mordad 1404": after `MMM`
has become the month name, the later replacements of `M` and `d` rewrite its letters.  Month 8
(Aban, with no `M` and no `d`) is formatted as documented. -/
theorem C22_format_long_english_rewrites_month_name :
    JalaliDate.Validate ⟨1404, 5, 4⟩ = none
      ∧ GetMonthNameEnglish 5 = "Mordad"
      ∧ JalaliDate.Format ⟨1404, 5, 4⟩ LayoutLongEnglish = "04 5or4a4 1404"
      ∧ JalaliDate.Format ⟨1404, 5, 4⟩ LayoutLongEnglish ≠ "04 Mordad 1404"
      ∧ JalaliDate.Format ⟨1404, 8, 4⟩ LayoutLongEnglish = "04 Aban 1404" := by
  decide

/-- C23 (refuted on the code): the leap rule does not repeat after 2820 years below year 474.
`IsLeapYear 25` is true and `IsLeapYear 2845` is false; `IsLeapYear 0` is true and
`IsLeapYear 2820` is false. -/
theorem C23_leap_rule_not_periodic_below_474 :
    IsLeapYear 25 = true ∧ IsLeapYear (25 + 2820) = false
      ∧ IsLeapYear 0 = true ∧ IsLeapYear (0 + 2820) = false := by
  decide

/-- C24: for every integer `c ≥ 0`, the last day of grand cycle `c`, that is day number
`n = jalaliToJDN 475 1 1 + 1029983 * c + 1029982`, is converted by `jdnToJalali` to
`(3294 + 2820 * c, 12, 30)`, and `jalaliToJDN` sends that date back to `n`. -/
theorem C24_last_day_of_grand_cycle (c : Int) (hc : 0 ≤ c) :
    jdnToJalali (jalaliToJDN 475 1 1 + 1029983 * c + 1029982) = (3294 + 2820 * c, 12, 30)
      ∧ jalaliToJDN (3294 + 2820 * c) 12 30
          = jalaliToJDN 475 1 1 + 1029983 * c + 1029982 := by
  have h475 : jalaliToJDN 475 1 1 = 2121446 := by decide
  constructor
  · unfold jdnToJalali
    simp only [h475, floorFix_mod, floorFix_div]
    have e1 : (2121446 + 1029983 * c + 1029982 - 2121446) % 1029983 = 1029982 := by omega
    have e2 : (2121446 + 1029983 * c + 1029982 - 2121446) / 1029983 = c := by omega
    rw [e1, e2, if_pos rfl, if_neg (by omega)]
    have e3 : 2820 + 2820 * c + 474 = 3294 + 2820 * c := by omega
    rw [e3]
  · have h1 := yearStart_cycle 2819 c (by omega) (by omega) hc
    have e3 : 3294 + 2820 * c = 2819 + 1 + 2820 * c + 474 := by omega
    rw [h475, e3, jalaliToJDN_offset, h1]
    simp
    omega

/-- C24, instance: the first grand cycle ends on 30 Esfand 3294. -/
theorem C24_last_day_of_grand_cycle_witness :
    (0 : Int) ≤ 0
      ∧ (jdnToJalali (jalaliToJDN 475 1 1 + 1029983 * 0 + 1029982) = (3294 + 2820 * 0, 12, 30)
        ∧ jalaliToJDN (3294 + 2820 * 0) 12 30
            = jalaliToJDN 475 1 1 + 1029983 * 0 + 1029982) :=
  ⟨by decide, C24_last_day_of_grand_cycle 0 (by decide)⟩

/-- C25: for every JalaliDate `j` that passes `Validate` and every integer `n`, each of
`j.AddMonths n`, `j.AddYears n`, `j.StartOfMonth`, `j.EndOfMonth`, `j.StartOfYear` and
`j.EndOfYear` passes `Validate`. -/
theorem C25_validity_preserved (j : JalaliDate) (n : Int) (hv : j.Validate = none) :
    (j.AddMonths n).Validate = none ∧ (j.AddYears n).Validate = none
      ∧ j.StartOfMonth.Validate = none ∧ j.EndOfMonth.Validate = none
      ∧ j.StartOfYear.Validate = none ∧ j.EndOfYear.Validate = none := by
  obtain ⟨hm1, hm2, hd1, hd2⟩ := Validate_none hv
  have hb := daysInJalaliMonth_bounds j.Year j.Month hm1 hm2
  have hb12 := daysInJalaliMonth_bounds j.Year 12 (by omega) (by omega)
  refine ⟨?_, ?_, ?_, ?_, ?_, ?_⟩
  · rw [AddMonths_eq]
    have hr : 1 ≤ (j.Month + n - 1) % 12 + 1 ∧ (j.Month + n - 1) % 12 + 1 ≤ 12 := by omega
    have hbn := daysInJalaliMonth_bounds (j.Year + (j.Month + n - 1) / 12)
      ((j.Month + n - 1) % 12 + 1) hr.1 hr.2
    apply Validate_of_range <;> simp only
    · omega
    · omega
    · split <;> omega
    · split <;> omega
  · have hbn := daysInJalaliMonth_bounds (j.Year + n) j.Month hm1 hm2
    apply Validate_of_range <;> simp only [JalaliDate.AddYears]
    · exact hm1
    · exact hm2
    · split <;> omega
    · split <;> omega
  · apply Validate_of_range <;> simp only [JalaliDate.StartOfMonth]
    · exact hm1
    · exact hm2
    · omega
    · omega
  · apply Validate_of_range <;> simp only [JalaliDate.EndOfMonth]
    · exact hm1
    · exact hm2
    · omega
    · omega
  · have hb1 := daysInJalaliMonth_bounds j.Year 1 (by omega) (by omega)
    apply Validate_of_range <;> simp only [JalaliDate.StartOfYear] <;> omega
  · apply Validate_of_range <;> simp only [JalaliDate.EndOfYear] <;> omega

/-- C25, instance: 31 Farvardin 1404 and six months. -/
theorem C25_validity_preserved_witness :
    JalaliDate.Validate ⟨1404, 1, 31⟩ = none
      ∧ ((JalaliDate.AddMonths ⟨1404, 1, 31⟩ 6).Validate = none
        ∧ (JalaliDate.AddYears ⟨1404, 1, 31⟩ 6).Validate = none
        ∧ (JalaliDate.StartOfMonth ⟨1404, 1, 31⟩).Validate = none
        ∧ (JalaliDate.EndOfMonth ⟨1404, 1, 31⟩).Validate = none
        ∧ (JalaliDate.StartOfYear ⟨1404, 1, 31⟩).Validate = none
        ∧ (JalaliDate.EndOfYear ⟨1404, 1, 31⟩).Validate = none) :=
  ⟨by decide, C25_validity_preserved ⟨1404, 1, 31⟩ 6 (by decide)⟩

/-- C26 (counterexample): 31 Farvardin 1404 and 30 Mehr 1404 are valid and `MonthsBetween`
gives k = 5, but adding k + 1 = 6 months to the first gives 30 Mehr 1404 itself (the day is
clamped), which is not `After` the second. -/
theorem C26_monthsBetween_counterexample :
    JalaliDate.Validate ⟨1404, 1, 31⟩ = none ∧ JalaliDate.Validate ⟨1404, 7, 30⟩ = none
      ∧ MonthsBetween ⟨1404, 1, 31⟩ ⟨1404, 7, 30⟩ = 5
      ∧ JalaliDate.AddMonths ⟨1404, 1, 31⟩ (5 + 1) = ⟨1404, 7, 30⟩
      ∧ JalaliDate.After ⟨1404, 7, 30⟩ ⟨1404, 7, 30⟩ = false := by
  refine ⟨by decide, by decide, by decide, ?_, by decide⟩
  rw [AddMonths_eq]
  decide

/-- C26 (amended): for every pair of valid JalaliDates `a` and `b`, with
`k = MonthsBetween a b`, `a.AddMonths k` is not `After` `b`; and `a.AddMonths (k + 1)` is `After`
`b` exactly when it is not the case that `b.Day < a.Day` and `b` is the last day of its month
(`b.Day = DaysInMonth b.Year b.Month`). -/
theorem C26_monthsBetween_completed_months (a b : JalaliDate) (ha : a.Validate = none)
    (hb : b.Validate = none) :
    (a.AddMonths (MonthsBetween a b)).After b = false
      ∧ ((a.AddMonths (MonthsBetween a b + 1)).After b = true
          ↔ ¬ (b.Day < a.Day ∧ b.Day = DaysInMonth b.Year b.Month)) := by
  obtain ⟨am1, am2, ad1, ad2⟩ := Validate_none ha
  obtain ⟨bm1, bm2, bd1, bd2⟩ := Validate_none hb
  simp only [DaysInMonth]
  rw [← Bool.not_eq_true, After_eq_true_iff, After_eq_true_iff]
  by_cases hd : b.Day < a.Day
  · have hk : MonthsBetween a b = (b.Year - a.Year) * 12 + (b.Month - a.Month) - 1 := by
      simp only [MonthsBetween, if_pos hd]
    rw [hk]
    have l2 := AddMonths_land a ((b.Year - a.Year) * 12 + (b.Month - a.Month) - 1 + 1)
      b.Year b.Month bm1 bm2 (by omega)
    rw [l2]
    have hlast : (b.Day < if a.Day > daysInJalaliMonth b.Year b.Month
          then daysInJalaliMonth b.Year b.Month else a.Day)
        ↔ ¬ (b.Day < a.Day ∧ b.Day = daysInJalaliMonth b.Year b.Month) := by
      constructor
      · intro h; split at h <;> omega
      · intro h; split <;> omega
    have hsecond : (b.Year < b.Year ∨ (b.Year = b.Year ∧ (b.Month < b.Month
          ∨ (b.Month = b.Month ∧ b.Day < if a.Day > daysInJalaliMonth b.Year b.Month
              then daysInJalaliMonth b.Year b.Month else a.Day))))
        ↔ ¬ (b.Day < a.Day ∧ b.Day = daysInJalaliMonth b.Year b.Month) := by
      rw [← hlast]
      constructor
      · intro h
        rcases h with h | ⟨_, h | ⟨_, h⟩⟩
        · omega
        · omega
        · exact h
      · intro h
        exact Or.inr ⟨rfl, Or.inr ⟨rfl, h⟩⟩
    refine ⟨?_, hsecond⟩
    by_cases h1 : b.Month = 1
    · have l1 := AddMonths_land a ((b.Year - a.Year) * 12 + (b.Month - a.Month) - 1)
        (b.Year - 1) 12 (by omega) (by omega) (by omega)
      rw [l1]
      intro h
      rcases h with h | ⟨h, _⟩
      · simp only at h; omega
      · simp only at h; omega
    · have l1 := AddMonths_land a ((b.Year - a.Year) * 12 + (b.Month - a.Month) - 1)
        b.Year (b.Month - 1) (by omega) (by omega) (by omega)
      rw [l1]
      intro h
      rcases h with h | ⟨_, h | ⟨h, _⟩⟩
      · simp only at h; omega
      · simp only at h; omega
      · simp only at h; omega
  · have hk : MonthsBetween a b = (b.Year - a.Year) * 12 + (b.Month - a.Month) := by
      simp only [MonthsBetween, if_neg hd]
    rw [hk]
    have l1 := AddMonths_land a ((b.Year - a.Year) * 12 + (b.Month - a.Month))
      b.Year b.Month bm1 bm2 (by omega)
    rw [l1]
    have hnot : ¬ (b.Day < a.Day ∧ b.Day = daysInJalaliMonth b.Year b.Month) :=
      fun h => hd h.1
    constructor
    · intro h
      rcases h with h | ⟨_, h | ⟨_, h⟩⟩
      · simp only at h; omega
      · simp only at h; omega
      · simp only at h; split at h <;> omega
    · by_cases h12 : b.Month = 12
      · have l2 := AddMonths_land a ((b.Year - a.Year) * 12 + (b.Month - a.Month) + 1)
          (b.Year + 1) 1 (by omega) (by omega) (by omega)
        rw [l2]
        exact ⟨fun _ => hnot, fun _ => Or.inl (by simp only; omega)⟩
      · have l2 := AddMonths_land a ((b.Year - a.Year) * 12 + (b.Month - a.Month) + 1)
          b.Year (b.Month + 1) (by omega) (by omega) (by omega)
        rw [l2]
        exact ⟨fun _ => hnot, fun _ => Or.inr ⟨rfl, Or.inl (by simp only; omega)⟩⟩

/-- C26 (amended), instance: 31 Farvardin 1404 and 30 Mehr 1404. -/
theorem C26_monthsBetween_completed_months_witness :
    JalaliDate.Validate ⟨1404, 1, 31⟩ = none ∧ JalaliDate.Validate ⟨1404, 7, 30⟩ = none
      ∧ ((JalaliDate.AddMonths ⟨1404, 1, 31⟩
            (MonthsBetween ⟨1404, 1, 31⟩ ⟨1404, 7, 30⟩)).After ⟨1404, 7, 30⟩ = false
        ∧ ((JalaliDate.AddMonths ⟨1404, 1, 31⟩
              (MonthsBetween ⟨1404, 1, 31⟩ ⟨1404, 7, 30⟩ + 1)).After ⟨1404, 7, 30⟩ = true
            ↔ ¬ ((30 : Int) < 31 ∧ (30 : Int) = DaysInMonth 1404 7))) :=
  ⟨by decide, by decide,
    C26_monthsBetween_completed_months ⟨1404, 1, 31⟩ ⟨1404, 7, 30⟩ (by decide) (by decide)⟩

/-- C27: for every valid JalaliDate `j` with year in 1..3000, the days between `j` and the
start of its year are `j.DayOfYear - 1`, and `1 ≤ j.DayOfYear ≤ DaysInYear j.Year`. -/
theorem C27_dayOfYear_agrees_with_jdn (j : JalaliDate) (hv : j.Validate = none)
    (hy1 : 1 ≤ j.Year) (_hy2 : j.Year ≤ 3000) :
    j.DaysBetween j.StartOfYear = j.DayOfYear - 1
      ∧ 1 ≤ j.DayOfYear ∧ j.DayOfYear ≤ DaysInYear j.Year := by
  obtain ⟨hm1, hm2, hd1, hd2⟩ := Validate_none hv
  have hb := daysInJalaliMonth_bounds j.Year j.Month hm1 hm2
  have hs := yearStart_lower j.Year hy1
  have ho := jalaliToJDN_offset j.Year j.Month j.Day
  have hdoy := DayOfYear_eq j hm1 hm2
  have hoff : 0 ≤ (if j.Month ≤ 7 then (j.Month - 1) * 31 else (j.Month - 1) * 30 + 6)
      ∧ (if j.Month ≤ 7 then (j.Month - 1) * 31 else (j.Month - 1) * 30 + 6) ≤ 336 := by
    split <;> omega
  refine ⟨?_, ?_, ?_⟩
  · rw [DaysBetween_eq_jdn j j.StartOfYear (by omega)
      (by simp only [JalaliDate.StartOfYear]; omega)
      (by simp only [JalaliDate.StartOfYear]; omega)
      (by simp only [JalaliDate.StartOfYear]; omega)]
    simp only [JalaliDate.StartOfYear]
    omega
  · omega
  · rw [daysInJalaliMonth_eq j.Year j.Month hm1 hm2] at hd2
    simp only [DaysInYear]
    rw [hdoy]
    by_cases h11 : j.Month ≤ 11
    · split <;> split <;> omega
    · have h12 : j.Month = 12 := by omega
      rw [h12] at hd2 ⊢
      rw [if_neg (by omega), if_neg (by omega)] at hd2
      rw [if_neg (by omega)]
      split <;> simp_all <;> omega

/-- C27, instance: 4 Aban 1404 is day 220 of its year. -/
theorem C27_dayOfYear_agrees_with_jdn_witness :
    JalaliDate.Validate ⟨1404, 8, 4⟩ = none ∧ (1 : Int) ≤ 1404 ∧ (1404 : Int) ≤ 3000
      ∧ (JalaliDate.DaysBetween ⟨1404, 8, 4⟩ (JalaliDate.StartOfYear ⟨1404, 8, 4⟩)
          = JalaliDate.DayOfYear ⟨1404, 8, 4⟩ - 1
        ∧ 1 ≤ JalaliDate.DayOfYear ⟨1404, 8, 4⟩
        ∧ JalaliDate.DayOfYear ⟨1404, 8, 4⟩ ≤ DaysInYear 1404) :=
  ⟨by decide, by decide, by decide,
    C27_dayOfYear_agrees_with_jdn ⟨1404, 8, 4⟩ (by decide) (by decide) (by decide)⟩

end Persiancal
